import Mathlib

/-!
Verification of the session-scoring pipeline of the `cc_evaluator` package.

The Python source is shallowly embedded:
* timestamps are rationals (seconds), so time differences are exact;
* scores are reals (one evaluator uses `exp`), all other arithmetic is
  rational and computable;
* Python `dict` configuration objects become a record of optional fields,
  `d.get(k, default)` becomes `Option.getD`;
* Python truthiness of strings (`if not content`) is modelled explicitly:
  `None` and the empty string are falsy.

Sources embedded: `cc_evaluator/models.py`, `cc_evaluator/config.py`,
`cc_evaluator/evaluators/*.py`, `cc_evaluator/main.py` (`evaluate_session`)
and the record-normalisation part of `cc_evaluator/parser/session_parser.py`.
-/

namespace CCEval

/-- `models.MessageType` (the Python enum has five values; the parser only ever
constructs `user` and `assistant` messages). -/
inductive MessageType where
  | user
  | assistant
  | toolResult
  | snapshot
  | queueOp
deriving DecidableEq, Repr

/-- `models.Message`, restricted to the fields the scoring pipeline reads.
`timestamp` is in seconds; `content` is `None`-able as in Python. -/
structure Message where
  uuid : String
  msgType : MessageType
  timestamp : ℚ
  content : Option String
  isToolResult : Bool
  isSidechain : Bool
deriving DecidableEq, Repr

/-- `models.CodeOperation`, restricted to the fields the scoring pipeline
reads (`lines` is what `total_lines` sums). -/
structure CodeOperation where
  filePath : String
  lines : ℕ
  timestamp : ℚ
deriving DecidableEq, Repr

/-- `models.SessionData` before `compute_derived_data` runs: the assembled
message and code-operation lists. The derived fields are modelled below as
functions of this record. -/
structure SessionData where
  messages : List Message
  codeOperations : List CodeOperation
deriving DecidableEq, Repr

/-- Python `str.lower` restricted to ASCII (`Char.toLower` is the identity
on every non-ASCII character, like `lower()` on the CJK keywords used here);
written through `List.map` so that it evaluates by `decide`. -/
def toLowerStr (s : String) : String :=
  ⟨s.data.map Char.toLower⟩

/-- Python `needle in haystack` on strings: substring containment. -/
def containsSubstr (needle haystack : String) : Bool :=
  decide (needle.toList <:+: haystack.toList)

/-- `config.FILTER_KEYWORDS`. -/
def FILTER_KEYWORDS : List String :=
  ["评分", "评估", "打分", "score", "evaluate", "eval", "cc-eval", "打个分"]

/-- `SessionData._is_eval_prompt`: `if not content: return False`, then a
case-insensitive substring test against every keyword. Python falsiness of
`None` and `""` is modelled by the two early branches. -/
def isEvalPrompt (content : Option String) (keywords : List String) : Bool :=
  match content with
  | none => false
  | some c =>
      if c = "" then false
      else keywords.any fun kw => containsSubstr (toLowerStr kw) (toLowerStr c)

/-- The `warmup` test in `compute_derived_data`:
`m.content and 'warmup' in m.content.lower()` (falsy `None`/`""` yields
`false`, i.e. the message is kept). -/
def containsWarmup (content : Option String) : Bool :=
  match content with
  | none => false
  | some c => if c = "" then false else containsSubstr "warmup" (toLowerStr c)

/-- The filter in `compute_derived_data` building `self.user_prompts`. -/
def userPromptFilter (m : Message) : Bool :=
  m.msgType = MessageType.user && !m.isToolResult && !m.isSidechain &&
    !containsWarmup m.content && !isEvalPrompt m.content FILTER_KEYWORDS

/-- Derived field `SessionData.user_prompts`. -/
def user_prompts (s : SessionData) : List Message :=
  s.messages.filter userPromptFilter

/-- Derived field `SessionData.assistant_responses`. -/
def assistant_responses (s : SessionData) : List Message :=
  s.messages.filter fun m =>
    m.msgType = MessageType.assistant && !m.isSidechain

/-- Derived field `SessionData.first_user_ts`: `min` of the prompt
timestamps when `user_prompts` is nonempty, else `None`. -/
def first_user_ts (s : SessionData) : Option ℚ :=
  ((user_prompts s).map Message.timestamp).min?

/-- Derived field `SessionData.first_assistant_ts`. -/
def first_assistant_ts (s : SessionData) : Option ℚ :=
  ((assistant_responses s).map Message.timestamp).min?

/-- Derived field `SessionData.total_lines`: sum of `op.lines`. -/
def total_lines (s : SessionData) : ℕ :=
  (s.codeOperations.map CodeOperation.lines).sum

/-- A Python evaluator config `dict`: every key any of the evaluators or
`BaseEvaluator.weight` may `get` is an optional field; an absent key is
`none`. `{}` is the record with all fields `none`. -/
structure EvalConfig where
  weight : Option ℚ := none
  modifyKeywords : Option (List String) := none
  threshold : Option ℚ := none
  decayRate : Option ℚ := none
  maxTime : Option ℚ := none
  optimal : Option ℕ := none
  maxCount : Option ℕ := none
  maxLines : Option ℕ := none
  baselineLines : Option ℕ := none
  completionRate : Option ℚ := none
deriving DecidableEq, Repr

/-- `config.SCORING_CONFIG` as a key-lookup (a Python dict of dicts);
note there is no entry for key `task_completion`. -/
def SCORING_CONFIG : String → Option EvalConfig := fun key =>
  if key = "first_completion" then
    some { weight := some 1,
           modifyKeywords := some ["修改", "bug", "错误", "fix", "change",
                                   "改", "不对", "问题", "error", "wrong"] }
  else if key = "first_time" then
    some { weight := some 1, threshold := some 5, decayRate := some (1/10),
           maxTime := some 60 }
  else if key = "prompt_count" then
    some { weight := some 1, optimal := some 1, maxCount := some 10 }
  else if key = "total_time" then
    some { weight := some 1, maxTime := some 60 }
  else if key = "code_size" then
    some { weight := some 1, maxLines := some 500 }
  else none

/-- `BaseEvaluator.weight`: `self.config.get('weight', 1.0)`. -/
def configWeight (cfg : EvalConfig) : ℚ :=
  cfg.weight.getD 1

/-- The `raw_value` side channel (`Any` in Python): the values actually
stored by the six evaluators. -/
inductive RawValue where
  | none
  | bool (b : Bool)
  | num (q : ℚ)
  | nat (n : ℕ)
deriving DecidableEq, Repr

/-- Outcome of an evaluator whose score arithmetic is rational
(every evaluator except `FirstTimeEvaluator`). -/
structure OutcomeQ where
  score : ℚ
  raw : RawValue
deriving DecidableEq, Repr

/-- `max(0.0, min(1.0, score))`, the clamp at the end of the evaluators. -/
def clamp01 (x : ℚ) : ℚ := max 0 (min 1 x)

namespace CompletionEvaluator

/-- The fallback `modify_keywords` list hard-coded in
`CompletionEvaluator.evaluate` (identical to the configured one). -/
def defaultModifyKeywords : List String :=
  ["修改", "bug", "错误", "fix", "change", "改", "不对", "问题", "error", "wrong"]

/-- `CompletionEvaluator.evaluate`: one prompt or fewer scores 1; with more
prompts, the second prompt's text (empty when `None`) is scanned for a
modify keyword, case-insensitively; a hit scores 0, otherwise 1. -/
def evaluate (cfg : EvalConfig) (s : SessionData) : OutcomeQ :=
  let prompts := user_prompts s
  if prompts.length ≤ 1 then ⟨1, .bool true⟩
  else
    let keywords := cfg.modifyKeywords.getD defaultModifyKeywords
    let content := toLowerStr (((prompts.get? 1).bind Message.content).getD "")
    if keywords.any (fun kw => containsSubstr (toLowerStr kw) content) then
      ⟨0, .bool false⟩
    else ⟨1, .bool true⟩

end CompletionEvaluator

/-- `max(0.0, min(1.0, score))` over the reals, for the one evaluator whose
score uses `exp`. -/
noncomputable def clamp01R (x : ℝ) : ℝ := max 0 (min 1 x)

/-- Outcome of `FirstTimeEvaluator.evaluate` (real-valued score because of
the exponential decay branch). -/
structure OutcomeR where
  score : ℝ
  raw : RawValue

namespace FirstTimeEvaluator

/-- `FirstTimeEvaluator.evaluate`: when either first timestamp is absent the
score is 0 and the raw value `None`; otherwise the raw value is the time
difference `t`; `t ≤ 0` returns 0 immediately, and otherwise the score is
1 for `t ≤ threshold`, 0 for `t ≥ max_time`, else
`exp(-decay_rate*(t-threshold))`, clamped into `[0,1]`. -/
noncomputable def evaluate (cfg : EvalConfig) (s : SessionData) : OutcomeR :=
  let threshold := cfg.threshold.getD 5
  let decayRate := cfg.decayRate.getD (1/10)
  let maxTime := cfg.maxTime.getD 60
  match first_user_ts s, first_assistant_ts s with
  | some tu, some ta =>
      let timeDiff := ta - tu
      if timeDiff ≤ 0 then ⟨0, .num timeDiff⟩
      else
        let score : ℝ :=
          if timeDiff ≤ threshold then 1
          else if timeDiff ≥ maxTime then 0
          else Real.exp (-(decayRate : ℝ) * ((timeDiff : ℝ) - (threshold : ℝ)))
        ⟨clamp01R score, .num timeDiff⟩
  | _, _ => ⟨0, .none⟩

end FirstTimeEvaluator

namespace PromptCountEvaluator

/-- `PromptCountEvaluator.evaluate`: 0 for no prompts, 1 for a single
prompt, else `1/count` (the configured `optimal`/`max_count` are read by the
source but unused by the current formula). -/
def evaluate (_cfg : EvalConfig) (s : SessionData) : OutcomeQ :=
  let count := (user_prompts s).length
  if count ≤ 0 then ⟨0, .nat count⟩
  else if count ≤ 1 then ⟨clamp01 1, .nat count⟩
  else ⟨clamp01 (1 / (count : ℚ)), .nat count⟩

end PromptCountEvaluator

namespace TotalTimeEvaluator

/-- The accumulation loop of `TotalTimeEvaluator.evaluate`: walk the sorted
messages keeping the previous timestamp (`last_ts`, initially `None`); for
every assistant message add the gap to the previous message when that gap is
strictly between 0 and 120 seconds. -/
def totalTimeLoop : List Message → Option ℚ → ℚ → ℚ
  | [], _, acc => acc
  | m :: rest, lastTs, acc =>
      let acc' :=
        match lastTs with
        | none => acc
        | some lt =>
            if m.msgType = MessageType.assistant ∧
               0 < m.timestamp - lt ∧ m.timestamp - lt < 120
            then acc + (m.timestamp - lt) else acc
      totalTimeLoop rest (some m.timestamp) acc'

/-- `sorted(session.messages, key=lambda m: m.timestamp)` (Python `sorted`
is a stable sort, as is `List.mergeSort`). -/
def sortedMessages (s : SessionData) : List Message :=
  List.insertionSort (fun a b => a.timestamp ≤ b.timestamp) s.messages

/-- The raw value computed by `TotalTimeEvaluator.evaluate` on a nonempty
session. -/
def total_time_raw (s : SessionData) : ℚ :=
  totalTimeLoop (sortedMessages s) none 0

/-- `TotalTimeEvaluator.evaluate`: no messages scores 0 with raw value 0;
a zero gap sum scores 1; a sum at or above `max_time` scores 0; otherwise
`1 - total/max_time`, clamped. -/
def evaluate (cfg : EvalConfig) (s : SessionData) : OutcomeQ :=
  let maxTime := cfg.maxTime.getD 60
  if s.messages.isEmpty then ⟨0, .num 0⟩
  else
    let totalTime := total_time_raw s
    if totalTime ≤ 0 then ⟨1, .num totalTime⟩
    else
      let score := if totalTime ≥ maxTime then 0 else 1 - totalTime / maxTime
      ⟨clamp01 score, .num totalTime⟩

end TotalTimeEvaluator

namespace CodeSizeEvaluator

/-- `CodeSizeEvaluator.evaluate`: zero lines scores 1; otherwise the score
is `baseline / max(baseline, total_lines)` with default baseline 100,
clamped (the configured `max_lines` is read by the source but unused). -/
def evaluate (cfg : EvalConfig) (s : SessionData) : OutcomeQ :=
  let totalLines := total_lines s
  if totalLines ≤ 0 then ⟨1, .nat totalLines⟩
  else
    let baseline := cfg.baselineLines.getD 100
    let effectiveLines := max baseline totalLines
    let score : ℚ := (baseline : ℚ) / (effectiveLines : ℚ)
    ⟨clamp01 score, .nat totalLines⟩

end CodeSizeEvaluator

namespace TaskCompletionEvaluator

/-- `TaskCompletionEvaluator.evaluate`: the externally supplied percentage
(default 100) clamped into `[0,100]`, divided by 100. -/
def evaluate (cfg : EvalConfig) (_s : SessionData) : OutcomeQ :=
  let completionRate := cfg.completionRate.getD 100
  let clampedRate := max 0 (min 100 completionRate)
  ⟨clampedRate / 100, .num clampedRate⟩

end TaskCompletionEvaluator

/-- `models.EvaluationResult` (the free-text `detail` field is omitted:
no scoring logic reads it). -/
structure EvaluationResult where
  name : String
  score : ℝ
  weight : ℝ
  raw : RawValue

/-- `EvaluationResult.weighted_score`. -/
noncomputable def EvaluationResult.weighted_score (r : EvaluationResult) : ℝ :=
  r.score * r.weight

/-- `SCORING_CONFIG.get('first_completion', {})` in `main.evaluate_session`. -/
def firstCompletionConfig : EvalConfig := (SCORING_CONFIG "first_completion").getD {}

/-- `SCORING_CONFIG.get('first_time', {})`. -/
def firstTimeConfig : EvalConfig := (SCORING_CONFIG "first_time").getD {}

/-- `SCORING_CONFIG.get('prompt_count', {})`. -/
def promptCountConfig : EvalConfig := (SCORING_CONFIG "prompt_count").getD {}

/-- `SCORING_CONFIG.get('total_time', {})`. -/
def totalTimeConfig : EvalConfig := (SCORING_CONFIG "total_time").getD {}

/-- `SCORING_CONFIG.get('code_size', {})`. -/
def codeSizeConfig : EvalConfig := (SCORING_CONFIG "code_size").getD {}

/-- `SCORING_CONFIG.get('task_completion', {})` — the key is absent, so this
is the empty config. -/
def taskCompletionConfigBase : EvalConfig := (SCORING_CONFIG "task_completion").getD {}

/-- `main.evaluate_session`: runs the six evaluators in their fixed order.
The completion dimension honours the `first_completed` override; its boolean
outcome (override value, or evaluator score `≥ 1.0`) gates the first-time
dimension, whose score is forced to 0 on failure while its raw value is the
one the evaluator computed. The `completion_rate` override is written into
the task-completion config before that evaluator runs. -/
noncomputable def evaluate_session (session : SessionData)
    (firstCompleted : Option Bool) (completionRate : Option ℚ) :
    List EvaluationResult :=
  let completionCfg := firstCompletionConfig
  let completionOutcome := CompletionEvaluator.evaluate completionCfg session
  let r1 : EvaluationResult :=
    match firstCompleted with
    | some b =>
        { name := "首次需求完成度", score := if b then 1 else 0,
          weight := (configWeight completionCfg : ℝ), raw := .bool b }
    | none =>
        { name := "首次需求完成度", score := (completionOutcome.score : ℝ),
          weight := (configWeight completionCfg : ℝ), raw := completionOutcome.raw }
  let isFirstSuccess : Bool :=
    match firstCompleted with
    | some b => b
    | none => decide (1 ≤ completionOutcome.score)
  let firstTimeCfg := firstTimeConfig
  let firstTimeOutcome := FirstTimeEvaluator.evaluate firstTimeCfg session
  let r2 : EvaluationResult :=
    if isFirstSuccess then
      { name := "首次完成时间", score := firstTimeOutcome.score,
        weight := (configWeight firstTimeCfg : ℝ), raw := firstTimeOutcome.raw }
    else
      { name := "首次完成时间", score := 0,
        weight := (configWeight firstTimeCfg : ℝ), raw := firstTimeOutcome.raw }
  let promptCfg := promptCountConfig
  let promptOutcome := PromptCountEvaluator.evaluate promptCfg session
  let r3 : EvaluationResult :=
    { name := "提示词次数", score := (promptOutcome.score : ℝ),
      weight := (configWeight promptCfg : ℝ), raw := promptOutcome.raw }
  let totalTimeCfg := totalTimeConfig
  let totalTimeOutcome := TotalTimeEvaluator.evaluate totalTimeCfg session
  let r4 : EvaluationResult :=
    { name := "总推理时间", score := (totalTimeOutcome.score : ℝ),
      weight := (configWeight totalTimeCfg : ℝ), raw := totalTimeOutcome.raw }
  let codeSizeCfg := codeSizeConfig
  let codeSizeOutcome := CodeSizeEvaluator.evaluate codeSizeCfg session
  let r5 : EvaluationResult :=
    { name := "代码规模", score := (codeSizeOutcome.score : ℝ),
      weight := (configWeight codeSizeCfg : ℝ), raw := codeSizeOutcome.raw }
  let taskCfgBase := taskCompletionConfigBase
  let taskCfg :=
    match completionRate with
    | some rate => { taskCfgBase with completionRate := some rate }
    | none => taskCfgBase
  let taskOutcome := TaskCompletionEvaluator.evaluate taskCfg session
  let r6 : EvaluationResult :=
    { name := "任务最终完成度", score := (taskOutcome.score : ℝ),
      weight := (configWeight taskCfg : ℝ), raw := taskOutcome.raw }
  [r1, r2, r3, r4, r5, r6]

/-- `EvaluationReport.compute_total_score` (as invoked by
`reporter.generate_report` on the result list of `evaluate_session`). -/
noncomputable def compute_total_score (results : List EvaluationResult) : ℝ :=
  if results.isEmpty then 0
  else
    let totalWeight := (results.map EvaluationResult.weight).sum
    if totalWeight = 0 then 0
    else (results.map EvaluationResult.weighted_score).sum / totalWeight

/-- A parsed JSONL record, as `parse_session_file` reads it: the `type`
discriminator, the raw `timestamp` string (`None` when the key is absent),
and the message payload already reduced by `parse_message_content` to the
fields a `Message` keeps. -/
structure RawRecord where
  typ : String
  timestampStr : Option String
  uuid : String
  content : Option String
  isToolResult : Bool
  isSidechain : Bool
deriving DecidableEq, Repr

/-- `session_parser.parse_timestamp` around an abstract ISO-8601 parser
`parseTs` (Python's `datetime.fromisoformat`, an external library call that
either yields a time or raises): `if not ts_str: return None` handles both a
missing key and an empty string, and a parse failure yields `None`. -/
def parse_timestamp (parseTs : String → Option ℚ) : Option String → Option ℚ
  | Option.none => Option.none
  | Option.some s => if s = "" then Option.none else parseTs s

/-- The per-record normalisation step of `parse_session_file`: records of
kind `queue-operation`/`file-history-snapshot`/`summary` are discarded, as
is any kind other than `user`/`assistant`; a retained record with a missing
or unparseable timestamp is discarded; anything else becomes a `Message`. -/
def normalizeRecord (parseTs : String → Option ℚ) (r : RawRecord) :
    Option Message :=
  if r.typ = "queue-operation" ∨ r.typ = "file-history-snapshot" ∨
     r.typ = "summary" then Option.none
  else if r.typ = "user" ∨ r.typ = "assistant" then
    match parse_timestamp parseTs r.timestampStr with
    | Option.none => Option.none
    | Option.some ts =>
        Option.some
          { uuid := r.uuid,
            msgType := if r.typ = "user" then MessageType.user
                       else MessageType.assistant,
            timestamp := ts, content := r.content,
            isToolResult := r.isToolResult, isSidechain := r.isSidechain }
  else Option.none

/-- The record loop of `parse_session_file` over the output of
`parse_jsonl_file`: a line that is not valid JSON (`json.loads` raised, here
`Option.none`) was already skipped by `parse_jsonl_file`; every other line
goes through `normalizeRecord`. The function is total: no input raises an
error to the caller. -/
def parse_records (parseTs : String → Option ℚ) :
    List (Option RawRecord) → List Message
  | [] => []
  | Option.none :: rest => parse_records parseTs rest
  | Option.some r :: rest =>
      match normalizeRecord parseTs r with
      | Option.none => parse_records parseTs rest
      | Option.some m => m :: parse_records parseTs rest

/-- Modelled from the spec (§4.3): the `userPrompts` membership condition in
the spec's own words — type is User, `isToolResult` and `isSidechain` are
false, the text contains no denylist keyword as a case-insensitive
substring, and the text does not contain `"warmup"` case-insensitively
(absent text is treated as containing nothing). Used only to be compared
with the source-derived `userPromptFilter`. -/
def specUserPromptKeep (m : Message) : Bool :=
  decide (m.msgType = MessageType.user) && !m.isToolResult && !m.isSidechain &&
    decide (∀ kw ∈ FILTER_KEYWORDS,
      ¬ (toLowerStr kw).toList <:+: (toLowerStr (m.content.getD "")).toList) &&
    !decide ((toLowerStr "warmup").toList <:+:
      (toLowerStr (m.content.getD "")).toList)

/-- The spec's declarative description of one total-reasoning-time summand:
the gap between a message and its predecessor, counted when the message is
an assistant message and the gap is strictly between 0 and 120 seconds. -/
def gapContribution (prev m : Message) : ℚ :=
  if m.msgType = MessageType.assistant ∧ 0 < m.timestamp - prev.timestamp ∧
     m.timestamp - prev.timestamp < 120
  then m.timestamp - prev.timestamp else 0

/-- A user message for the concrete test sessions. -/
def mkUser (uuid : String) (ts : ℚ) (text : String) : Message :=
  { uuid := uuid, msgType := MessageType.user, timestamp := ts,
    content := Option.some text, isToolResult := false, isSidechain := false }

/-- An assistant message for the concrete test sessions. -/
def mkAsst (uuid : String) (ts : ℚ) : Message :=
  { uuid := uuid, msgType := MessageType.assistant, timestamp := ts,
    content := Option.some "ok", isToolResult := false, isSidechain := false }

/-- Three user prompts with innocuous contents (no filter keyword, no
modify keyword, no warmup marker). -/
def exThree : SessionData :=
  { messages := [mkUser "u1" 0 "alpha", mkUser "u2" 10 "beta",
                 mkUser "u3" 20 "gamma"],
    codeOperations := [] }

/-- Three user prompts whose second one contains the modify keyword `fix`. -/
def exThreeFix : SessionData :=
  { messages := [mkUser "u1" 0 "alpha", mkUser "u2" 10 "please fix it",
                 mkUser "u3" 20 "gamma"],
    codeOperations := [] }

/-- One user message at t = 0 and one assistant message at t = 10: a single
counted reasoning gap of 10 seconds. -/
def exGap : SessionData :=
  { messages := [mkUser "u1" 0 "alpha", mkAsst "a1" 10], codeOperations := [] }

/-- Assistant-preceded gaps of 200 s and 10 s (spec Scenario C). -/
def exScenC : SessionData :=
  { messages := [mkUser "u1" 0 "alpha", mkAsst "a1" 200, mkAsst "a2" 210],
    codeOperations := [] }

/-- A session whose code operations total 500 generated lines. -/
def exLines : SessionData :=
  { messages := [mkUser "u1" 0 "alpha"],
    codeOperations := [{ filePath := "f.py", lines := 500, timestamp := 1 }] }

/-- One user prompt at t = 0 answered by an assistant at t = 3. -/
def exPair : SessionData :=
  { messages := [mkUser "u1" 0 "alpha", mkAsst "a1" 3], codeOperations := [] }

/-- A session with an evaluation-meta user message (contains `评分`) between
two ordinary ones. -/
def exFiltered : SessionData :=
  { messages := [mkUser "u1" 0 "hello", mkUser "u2" 10 "请评分一下本次会话",
                 mkUser "u3" 20 "world"],
    codeOperations := [] }

/-- The keyword scan applied by `CompletionEvaluator.evaluate` to the second
prompt's text (with the default keyword list, which is also the configured
one): a case-insensitive substring match against the modify keywords, on the
text lowered once (absent text counts as empty). -/
def hasModifyKeyword (content : Option String) : Bool :=
  CompletionEvaluator.defaultModifyKeywords.any fun kw =>
    containsSubstr (toLowerStr kw) (toLowerStr (content.getD ""))

/-- A concrete ISO-timestamp parser for the normaliser tests: only the
string `"T1"` parses (to second 1). -/
def exParseTs : String → Option ℚ := fun s =>
  if s = "T1" then Option.some 1 else Option.none

/-- Concrete raw lines for the normaliser tests: a malformed JSON line, a
summary record, a well-formed user record, and a user record with an
unparseable timestamp. -/
def exRawLines : List (Option RawRecord) :=
  [Option.none,
   Option.some { typ := "summary", timestampStr := Option.some "T1",
                 uuid := "s", content := Option.none,
                 isToolResult := false, isSidechain := false },
   Option.some { typ := "user", timestampStr := Option.some "T1",
                 uuid := "g", content := Option.some "hi",
                 isToolResult := false, isSidechain := false },
   Option.some { typ := "user", timestampStr := Option.some "garbage",
                 uuid := "b", content := Option.some "there",
                 isToolResult := false, isSidechain := false }]

/-- A one-element result list with weight 2, for the aggregation tests. -/
noncomputable def exResults : List EvaluationResult :=
  [{ name := "dim", score := 1/2, weight := 2, raw := RawValue.none }]

/-- The one message that survives normalisation of `exRawLines`. -/
def exParsedMsg : Message :=
  { uuid := "g", msgType := MessageType.user, timestamp := 1,
    content := Option.some "hi", isToolResult := false, isSidechain := false }

end CCEval

namespace CCEval

/-! ### Shared helper lemmas -/

theorem firstCompletionConfig_modify :
    firstCompletionConfig.modifyKeywords =
      Option.some CompletionEvaluator.defaultModifyKeywords := rfl

theorem clamp01_nonneg (x : ℚ) : 0 ≤ clamp01 x := le_max_left 0 _

theorem clamp01_le_one (x : ℚ) : clamp01 x ≤ 1 :=
  max_le (by norm_num) (min_le_left 1 x)

theorem clamp01_eq_self (x : ℚ) (h0 : 0 ≤ x) (h1 : x ≤ 1) : clamp01 x = x := by
  unfold clamp01
  rw [min_eq_right h1, max_eq_right h0]

theorem clamp01R_nonneg (x : ℝ) : 0 ≤ clamp01R x := le_max_left 0 _

theorem clamp01R_le_one (x : ℝ) : clamp01R x ≤ 1 :=
  max_le (by norm_num) (min_le_left 1 x)

theorem clamp01R_eq_self (x : ℝ) (h0 : 0 ≤ x) (h1 : x ≤ 1) : clamp01R x = x := by
  unfold clamp01R
  rw [min_eq_right h1, max_eq_right h0]

/-! ### C1: first-requirement completion -/

/-- C1 (counterexample): a session with 3 user prompts whose second prompt
contains no modify keyword scores 1, not 0 — the multi-prompt outcome is not
independent of prompt content. -/
theorem C1_counterexample :
    (user_prompts exThree).length = 3 ∧
    (CompletionEvaluator.evaluate firstCompletionConfig exThree).score ≠ 0 := by
  constructor
  · decide
  · decide

/-- C1 (amended): `CompletionEvaluator.evaluate` scores 1 when there is at
most one user prompt; with more prompts it scores 0 exactly when the second
prompt's text contains a modify keyword case-insensitively, and 1
otherwise. -/
theorem C1_amended (s : SessionData) :
    ((user_prompts s).length ≤ 1 →
      CompletionEvaluator.evaluate firstCompletionConfig s =
        ⟨1, RawValue.bool true⟩) ∧
    (∀ m, (user_prompts s).get? 1 = Option.some m →
      (hasModifyKeyword m.content = true →
        CompletionEvaluator.evaluate firstCompletionConfig s =
          ⟨0, RawValue.bool false⟩) ∧
      (hasModifyKeyword m.content = false →
        CompletionEvaluator.evaluate firstCompletionConfig s =
          ⟨1, RawValue.bool true⟩)) := by
  constructor
  · intro h
    unfold CompletionEvaluator.evaluate
    rw [if_pos h]
  · intro m hm
    have hlen : ¬ (user_prompts s).length ≤ 1 := by
      have h1 := (List.get?_eq_some.mp hm).1
      omega
    have hbind : ((user_prompts s).get? 1).bind Message.content = m.content := by
      rw [hm]
      rfl
    unfold CompletionEvaluator.evaluate
    rw [if_neg hlen, firstCompletionConfig_modify, Option.getD_some, hbind]
    unfold hasModifyKeyword
    constructor
    · intro hkw
      rw [if_pos hkw]
    · intro hkw
      rw [if_neg (by simp [hkw])]

/-- C1 (witness): the amended theorem instantiated at a 3-prompt session
whose second prompt contains `fix`. -/
theorem C1_amended_witness :
    (user_prompts exThreeFix).get? 1 =
      Option.some (mkUser "u2" 10 "please fix it") ∧
    CompletionEvaluator.evaluate firstCompletionConfig exThreeFix =
      ⟨0, RawValue.bool false⟩ := by
  have hm : (user_prompts exThreeFix).get? 1 =
      Option.some (mkUser "u2" 10 "please fix it") := by decide
  exact ⟨hm, ((C1_amended exThreeFix).2 _ hm).1 (by decide)⟩

end CCEval

namespace CCEval

/-! ### C3: code volume -/

/-- C3 (counterexample): a session with 500 generated lines scores
`100/500 = 1/5`, not `1/500`. -/
theorem C3_counterexample :
    total_lines exLines = 500 ∧
    (CodeSizeEvaluator.evaluate codeSizeConfig exLines).score ≠ 1/500 ∧
    (CodeSizeEvaluator.evaluate codeSizeConfig exLines).score = 1/5 := by
  have hlines : total_lines exLines = 500 := by decide
  have hbase : codeSizeConfig.baselineLines = Option.none := rfl
  have hsc : (CodeSizeEvaluator.evaluate codeSizeConfig exLines).score = 1/5 := by
    unfold CodeSizeEvaluator.evaluate
    rw [hlines, hbase]
    norm_num [clamp01, min_def, max_def, Nat.max_def]
  exact ⟨hlines, by rw [hsc]; norm_num, hsc⟩

/-- C3 (amended): `CodeSizeEvaluator.evaluate` scores 1 when no lines were
generated; otherwise its raw value is `totalLines` and its score is
`baseline / max(baseline, totalLines)` with the default baseline of 100
(so 1 up to 100 lines, `100/totalLines` beyond). -/
theorem C3_amended (s : SessionData) :
    (total_lines s = 0 →
      CodeSizeEvaluator.evaluate codeSizeConfig s = ⟨1, RawValue.nat 0⟩) ∧
    (0 < total_lines s →
      (CodeSizeEvaluator.evaluate codeSizeConfig s).raw =
        RawValue.nat (total_lines s) ∧
      (CodeSizeEvaluator.evaluate codeSizeConfig s).score =
        100 / ((max 100 (total_lines s) : ℕ) : ℚ)) := by
  constructor
  · intro h
    unfold CodeSizeEvaluator.evaluate
    rw [h]
    rfl
  · intro h
    have hn : ¬ total_lines s ≤ 0 := by omega
    have hbase : codeSizeConfig.baselineLines = Option.none := rfl
    unfold CodeSizeEvaluator.evaluate
    rw [if_neg hn, hbase]
    refine ⟨rfl, ?_⟩
    show clamp01 (((100:ℕ):ℚ) / ((max 100 (total_lines s) : ℕ) : ℚ)) = _
    have hpos : (0:ℚ) < ((max 100 (total_lines s) : ℕ) : ℚ) := by
      have : 0 < max 100 (total_lines s) := by omega
      exact_mod_cast this
    rw [clamp01_eq_self _ (by positivity) (by
      rw [div_le_one hpos]
      exact_mod_cast Nat.le_max_left 100 (total_lines s))]
    norm_num

/-- C3 (witness): the amended theorem instantiated at the 500-line session:
score `1/5`. -/
theorem C3_amended_witness :
    0 < total_lines exLines ∧
    (CodeSizeEvaluator.evaluate codeSizeConfig exLines).score = 1/5 := by
  have h : 0 < total_lines exLines := by decide
  have h2 := (C3_amended exLines).2 h
  refine ⟨h, ?_⟩
  rw [h2.2]
  have hlines : total_lines exLines = 500 := by decide
  rw [hlines]
  norm_num

end CCEval

namespace CCEval

/-! ### C2: total reasoning time -/

theorem totalTimeConfig_maxTime : totalTimeConfig.maxTime = Option.some 60 := rfl

/-- With the previous timestamp known, the loop of
`TotalTimeEvaluator.evaluate` accumulates exactly the declarative
consecutive-pair gap sum. -/
theorem totalTimeLoop_eq_sum (l : List Message) (prev : Message) (acc : ℚ) :
    TotalTimeEvaluator.totalTimeLoop l (Option.some prev.timestamp) acc =
      acc + (((prev :: l).zip l).map fun p => gapContribution p.1 p.2).sum := by
  induction l generalizing prev acc with
  | nil => simp [TotalTimeEvaluator.totalTimeLoop]
  | cons m rest ih =>
      rw [show TotalTimeEvaluator.totalTimeLoop (m :: rest)
            (Option.some prev.timestamp) acc =
          TotalTimeEvaluator.totalTimeLoop rest (Option.some m.timestamp)
            (if m.msgType = MessageType.assistant ∧
                0 < m.timestamp - prev.timestamp ∧
                m.timestamp - prev.timestamp < 120
             then acc + (m.timestamp - prev.timestamp) else acc) from rfl]
      rw [ih m]
      rw [List.zip_cons_cons, List.map_cons, List.sum_cons]
      by_cases hc : m.msgType = MessageType.assistant ∧
          0 < m.timestamp - prev.timestamp ∧ m.timestamp - prev.timestamp < 120
      · rw [if_pos hc]
        unfold gapContribution
        rw [if_pos hc]
        ring
      · rw [if_neg hc]
        unfold gapContribution
        rw [if_neg hc]
        ring

/-- The raw value of the total-time evaluator is the sum over consecutive
pairs of the timestamp-sorted messages of the assistant-gap contribution. -/
theorem total_time_raw_eq (s : SessionData) :
    TotalTimeEvaluator.total_time_raw s =
      (((TotalTimeEvaluator.sortedMessages s).zip
          (TotalTimeEvaluator.sortedMessages s).tail).map
        fun p => gapContribution p.1 p.2).sum := by
  unfold TotalTimeEvaluator.total_time_raw
  cases h : TotalTimeEvaluator.sortedMessages s with
  | nil => simp [TotalTimeEvaluator.totalTimeLoop]
  | cons m rest =>
      rw [show TotalTimeEvaluator.totalTimeLoop (m :: rest) Option.none 0 =
            TotalTimeEvaluator.totalTimeLoop rest (Option.some m.timestamp) 0
          from rfl]
      rw [totalTimeLoop_eq_sum rest m 0, List.tail_cons]
      ring

/-- C2 (counterexample): a session with a single counted assistant gap of
10 seconds has raw value 10 (at most 60), yet its score is `5/6`, not 1. -/
theorem C2_counterexample :
    (TotalTimeEvaluator.evaluate totalTimeConfig exGap).raw = RawValue.num 10 ∧
    TotalTimeEvaluator.total_time_raw exGap ≤ 60 ∧
    (TotalTimeEvaluator.evaluate totalTimeConfig exGap).score ≠ 1 := by
  have hraw : TotalTimeEvaluator.total_time_raw exGap = 10 := by
    norm_num [TotalTimeEvaluator.total_time_raw, TotalTimeEvaluator.sortedMessages,
      exGap, List.insertionSort, List.orderedInsert,
      TotalTimeEvaluator.totalTimeLoop, mkUser, mkAsst]
  have hne : exGap.messages.isEmpty = false := by decide
  have hev : TotalTimeEvaluator.evaluate totalTimeConfig exGap =
      ⟨5/6, RawValue.num 10⟩ := by
    norm_num [TotalTimeEvaluator.evaluate, totalTimeConfig_maxTime, hraw, hne,
      clamp01, min_def, max_def]
  rw [hev]
  rw [hraw] at *
  exact ⟨rfl, by norm_num, by norm_num⟩

/-- C2 (amended): the raw value is the sum over the timestamp-sorted
messages of each assistant message's gap to its predecessor, counting only
gaps strictly between 0 and 120 s; on a session with messages the score is 1
when that sum is 0, 0 when the sum is at least 60, and `1 − sum/60`
otherwise. -/
theorem C2_amended (s : SessionData) (h : s.messages ≠ []) :
    (TotalTimeEvaluator.evaluate totalTimeConfig s).raw =
      RawValue.num (TotalTimeEvaluator.total_time_raw s) ∧
    TotalTimeEvaluator.total_time_raw s =
      (((TotalTimeEvaluator.sortedMessages s).zip
          (TotalTimeEvaluator.sortedMessages s).tail).map
        fun p => gapContribution p.1 p.2).sum ∧
    (TotalTimeEvaluator.total_time_raw s ≤ 0 →
      (TotalTimeEvaluator.evaluate totalTimeConfig s).score = 1) ∧
    (60 ≤ TotalTimeEvaluator.total_time_raw s →
      (TotalTimeEvaluator.evaluate totalTimeConfig s).score = 0) ∧
    (0 < TotalTimeEvaluator.total_time_raw s →
      TotalTimeEvaluator.total_time_raw s < 60 →
      (TotalTimeEvaluator.evaluate totalTimeConfig s).score =
        1 - TotalTimeEvaluator.total_time_raw s / 60) := by
  have hne : s.messages.isEmpty = false := by
    cases hm : s.messages with
    | nil => exact absurd hm h
    | cons a l => rfl
  unfold TotalTimeEvaluator.evaluate
  rw [hne, totalTimeConfig_maxTime]
  simp only [Bool.false_eq_true, if_false, Option.getD_some]
  refine ⟨?_, total_time_raw_eq s, ?_, ?_, ?_⟩
  · by_cases h0 : TotalTimeEvaluator.total_time_raw s ≤ 0
    · rw [if_pos h0]
    · rw [if_neg h0]
  · intro h0
    rw [if_pos h0]
  · intro h60
    rw [if_neg (by linarith), if_pos h60]
    norm_num [clamp01, min_def, max_def]
  · intro h0 h60
    rw [if_neg (by linarith), if_neg (by linarith)]
    refine clamp01_eq_self _ ?_ ?_
    · have hd : TotalTimeEvaluator.total_time_raw s / 60 < 1 := by
        rw [div_lt_one (by norm_num)]
        exact h60
      linarith
    · have hd : 0 < TotalTimeEvaluator.total_time_raw s / 60 :=
        div_pos h0 (by norm_num)
      linarith

/-- C2 (witness): the amended theorem at Scenario C (gaps of 200 s and
10 s): raw value 10, score `5/6`. -/
theorem C2_amended_witness :
    exScenC.messages ≠ [] ∧
    TotalTimeEvaluator.total_time_raw exScenC = 10 ∧
    (TotalTimeEvaluator.evaluate totalTimeConfig exScenC).score = 5/6 := by
  have hne : exScenC.messages ≠ [] := by decide
  have hraw : TotalTimeEvaluator.total_time_raw exScenC = 10 := by
    norm_num [TotalTimeEvaluator.total_time_raw, TotalTimeEvaluator.sortedMessages,
      exScenC, List.insertionSort, List.orderedInsert,
      TotalTimeEvaluator.totalTimeLoop, mkUser, mkAsst]
  have hs := (C2_amended exScenC hne).2.2.2.2 (by rw [hraw]; norm_num)
    (by rw [hraw]; norm_num)
  exact ⟨hne, hraw, by rw [hs, hraw]; norm_num⟩

end CCEval

namespace CCEval

/-! ### C5: first-response latency -/

/-- C5: with the configured defaults, `FirstTimeEvaluator.evaluate` scores
the delta `t = firstAssistantTimestamp − firstUserTimestamp` as 0 when
either timestamp is absent (raw value absent) or `t ≤ 0`, as 1 when
`0 < t ≤ 5`, as 0 when `t ≥ 60`, and as `exp(−0.1·(t−5))` otherwise; the raw
value is `t` whenever both timestamps exist. -/
theorem C5_thm (s : SessionData) :
    ((first_user_ts s = Option.none ∨ first_assistant_ts s = Option.none) →
      (FirstTimeEvaluator.evaluate firstTimeConfig s).score = 0 ∧
      (FirstTimeEvaluator.evaluate firstTimeConfig s).raw = RawValue.none) ∧
    (∀ tu ta, first_user_ts s = Option.some tu →
      first_assistant_ts s = Option.some ta →
      (FirstTimeEvaluator.evaluate firstTimeConfig s).raw =
        RawValue.num (ta - tu) ∧
      (ta - tu ≤ 0 → (FirstTimeEvaluator.evaluate firstTimeConfig s).score = 0) ∧
      (0 < ta - tu → ta - tu ≤ 5 →
        (FirstTimeEvaluator.evaluate firstTimeConfig s).score = 1) ∧
      (60 ≤ ta - tu →
        (FirstTimeEvaluator.evaluate firstTimeConfig s).score = 0) ∧
      (5 < ta - tu → ta - tu < 60 →
        (FirstTimeEvaluator.evaluate firstTimeConfig s).score =
          Real.exp (-(1/10 : ℝ) * (((ta - tu : ℚ) : ℝ) - 5)))) := by
  constructor
  · intro hcase
    unfold FirstTimeEvaluator.evaluate
    rcases hu : first_user_ts s with _ | tu <;>
      rcases ha : first_assistant_ts s with _ | ta
    · exact ⟨rfl, rfl⟩
    · exact ⟨rfl, rfl⟩
    · exact ⟨rfl, rfl⟩
    · exfalso
      rcases hcase with h | h
      · rw [hu] at h
        exact Option.some_ne_none tu h
      · rw [ha] at h
        exact Option.some_ne_none ta h
  · intro tu ta hu ha
    unfold FirstTimeEvaluator.evaluate
    rw [hu, ha,
        show firstTimeConfig.threshold = Option.some 5 from rfl,
        show firstTimeConfig.decayRate = Option.some (1/10) from rfl,
        show firstTimeConfig.maxTime = Option.some 60 from rfl]
    simp only [Option.getD_some]
    refine ⟨?_, ?_, ?_, ?_, ?_⟩
    · by_cases h0 : ta - tu ≤ 0
      · rw [if_pos h0]
      · rw [if_neg h0]
    · intro h0
      rw [if_pos h0]
    · intro h0 h5
      rw [if_neg (by linarith), if_pos h5]
      exact clamp01R_eq_self 1 zero_le_one le_rfl
    · intro h60
      rw [if_neg (by linarith), if_neg (by linarith), if_pos h60]
      norm_num [clamp01R, min_def, max_def]
    · intro h5 h60
      rw [if_neg (by linarith), if_neg (by linarith), if_neg (by linarith)]
      have hgt : (5:ℝ) < ((ta - tu : ℚ) : ℝ) := by exact_mod_cast h5
      have hexp_le : -(((1/10 : ℚ):ℝ)) * (((ta - tu : ℚ):ℝ) - ((5:ℚ):ℝ)) ≤ 0 := by
        rw [show ((1/10 : ℚ):ℝ) = 1/10 by norm_num,
            show ((5:ℚ):ℝ) = 5 by norm_num]
        nlinarith
      rw [clamp01R_eq_self _ (Real.exp_pos _).le (Real.exp_le_one_iff.mpr hexp_le)]
      push_cast
      ring_nf

/-- C5 (witness): one user prompt at t = 0 answered at t = 3: raw value 3,
score 1. -/
theorem C5_witness :
    first_user_ts exPair = Option.some 0 ∧
    first_assistant_ts exPair = Option.some 3 ∧
    (FirstTimeEvaluator.evaluate firstTimeConfig exPair).score = 1 ∧
    (FirstTimeEvaluator.evaluate firstTimeConfig exPair).raw = RawValue.num 3 := by
  have hu : first_user_ts exPair = Option.some 0 := by decide
  have ha : first_assistant_ts exPair = Option.some 3 := by decide
  have h := (C5_thm exPair).2 0 3 hu ha
  refine ⟨hu, ha, h.2.2.1 (by norm_num) (by norm_num), ?_⟩
  rw [h.1]
  norm_num

end CCEval

namespace CCEval

/-! ### C6: user-prompt filtering -/

/-- `containsWarmup` detects exactly a `warmup` substring of the lowered
text, with absent text read as empty. -/
theorem containsWarmup_iff (c : Option String) :
    containsWarmup c = true ↔
      "warmup".toList <:+: (toLowerStr (c.getD "")).toList := by
  rcases c with _ | c
  · simp only [containsWarmup, Option.getD_none]
    constructor
    · intro h
      cases h
    · intro h
      exact absurd h (by decide)
  · by_cases hc : c = ""
    · subst hc
      simp only [containsWarmup, Option.getD_some, if_pos rfl]
      constructor
      · intro h
        cases h
      · intro h
        exact absurd h (by decide)
    · simp only [containsWarmup, Option.getD_some, if_neg hc, containsSubstr,
        decide_eq_true_iff]

/-- `isEvalPrompt` with the configured denylist detects exactly a lowered
keyword occurring in the lowered text, with absent text read as empty. -/
theorem isEvalPrompt_iff (c : Option String) :
    isEvalPrompt c FILTER_KEYWORDS = true ↔
      ∃ kw ∈ FILTER_KEYWORDS,
        (toLowerStr kw).toList <:+: (toLowerStr (c.getD "")).toList := by
  rcases c with _ | c
  · simp only [isEvalPrompt, Option.getD_none]
    constructor
    · intro h
      cases h
    · intro h
      exact absurd h (by decide)
  · by_cases hc : c = ""
    · subst hc
      simp only [isEvalPrompt, Option.getD_some, if_pos rfl]
      constructor
      · intro h
        cases h
      · intro h
        exact absurd h (by decide)
    · simp only [isEvalPrompt, Option.getD_some, if_neg hc, List.any_eq_true,
        containsSubstr, decide_eq_true_iff]

/-- `containsWarmup` is false exactly when no `warmup` substring occurs. -/
theorem containsWarmup_false_iff (c : Option String) :
    containsWarmup c = false ↔
      ¬ "warmup".toList <:+: (toLowerStr (c.getD "")).toList := by
  constructor
  · intro h hp
    have hb := (containsWarmup_iff c).mpr hp
    rw [h] at hb
    exact Bool.false_ne_true hb
  · intro h
    cases hb : containsWarmup c with
    | false => rfl
    | true => exact absurd ((containsWarmup_iff c).mp hb) h

/-- `isEvalPrompt` is false exactly when no denylist keyword occurs. -/
theorem isEvalPrompt_false_iff (c : Option String) :
    isEvalPrompt c FILTER_KEYWORDS = false ↔
      ∀ kw ∈ FILTER_KEYWORDS,
        ¬ (toLowerStr kw).toList <:+: (toLowerStr (c.getD "")).toList := by
  constructor
  · intro h kw hkw hinf
    have hb := (isEvalPrompt_iff c).mpr ⟨kw, hkw, hinf⟩
    rw [h] at hb
    exact Bool.false_ne_true hb
  · intro h
    cases hb : isEvalPrompt c FILTER_KEYWORDS with
    | false => rfl
    | true =>
        rcases (isEvalPrompt_iff c).mp hb with ⟨kw, hkw, hinf⟩
        exact absurd hinf (h kw hkw)

/-- `userPromptFilter m = true`, spelled out. -/
theorem userPromptFilter_iff (m : Message) :
    userPromptFilter m = true ↔
      m.msgType = MessageType.user ∧ m.isToolResult = false ∧
      m.isSidechain = false ∧ containsWarmup m.content = false ∧
      isEvalPrompt m.content FILTER_KEYWORDS = false := by
  unfold userPromptFilter
  simp [Bool.and_eq_true, Bool.not_eq_true', and_assoc]

/-- `specUserPromptKeep m = true`, spelled out. -/
theorem specUserPromptKeep_iff (m : Message) :
    specUserPromptKeep m = true ↔
      m.msgType = MessageType.user ∧ m.isToolResult = false ∧
      m.isSidechain = false ∧
      (∀ kw ∈ FILTER_KEYWORDS,
        ¬ (toLowerStr kw).toList <:+: (toLowerStr (m.content.getD "")).toList) ∧
      ¬ "warmup".toList <:+: (toLowerStr (m.content.getD "")).toList := by
  unfold specUserPromptKeep
  rw [show toLowerStr "warmup" = "warmup" from by decide]
  simp [Bool.and_eq_true, Bool.not_eq_true', decide_eq_false_iff_not, and_assoc]

/-- The source filter of `compute_derived_data` agrees pointwise with the
predicate written from the spec's words. -/
theorem userPromptFilter_eq_spec (m : Message) :
    userPromptFilter m = specUserPromptKeep m := by
  rw [Bool.eq_iff_iff, userPromptFilter_iff, specUserPromptKeep_iff,
      containsWarmup_false_iff, isEvalPrompt_false_iff]
  tauto

/-- C6: `userPrompts` is exactly the filter of `messages` by the spec's
membership condition (hence a subsequence, order and content unchanged), and
a User message whose text contains a denylist keyword case-insensitively is
excluded regardless of its position. -/
theorem C6_thm (s : SessionData) :
    user_prompts s = s.messages.filter specUserPromptKeep ∧
    (user_prompts s).Sublist s.messages ∧
    (∀ m, m ∈ s.messages → m.msgType = MessageType.user →
      (∃ kw ∈ FILTER_KEYWORDS,
        (toLowerStr kw).toList <:+: (toLowerStr (m.content.getD "")).toList) →
      m ∉ user_prompts s) := by
  have hfe : user_prompts s = s.messages.filter specUserPromptKeep := by
    unfold user_prompts
    exact List.filter_congr fun m _ => userPromptFilter_eq_spec m
  refine ⟨hfe, List.filter_sublist _, ?_⟩
  intro m _ _ hex hmem
  rw [hfe] at hmem
  have hkeep := (List.mem_filter.mp hmem).2
  unfold specUserPromptKeep at hkeep
  simp only [Bool.and_eq_true, Bool.not_eq_true', decide_eq_true_iff] at hkeep
  rcases hex with ⟨kw, hkw, hinf⟩
  exact hkeep.1.2 kw hkw hinf

/-- C6 (witness): in `exFiltered` the middle User message contains the
denylist keyword `评分` and is excluded from `userPrompts`. -/
theorem C6_witness :
    mkUser "u2" 10 "请评分一下本次会话" ∈ exFiltered.messages ∧
    (mkUser "u2" 10 "请评分一下本次会话").msgType = MessageType.user ∧
    mkUser "u2" 10 "请评分一下本次会话" ∉ user_prompts exFiltered := by
  refine ⟨by decide, by decide, ?_⟩
  exact (C6_thm exFiltered).2.2 _ (by decide) (by decide)
    ⟨"评分", by decide, by decide⟩

end CCEval

namespace CCEval

/-! ### C8: total-score aggregation -/

/-- C8: `compute_total_score` is 0 on an empty result list and when the
weights sum to 0; otherwise it is the sum of `score × weight` divided by the
sum of the weights. -/
theorem C8_thm (results : List EvaluationResult) :
    (results = [] → compute_total_score results = 0) ∧
    ((results.map EvaluationResult.weight).sum = 0 →
      compute_total_score results = 0) ∧
    ((results.map EvaluationResult.weight).sum ≠ 0 →
      compute_total_score results =
        (results.map fun r => r.score * r.weight).sum /
          (results.map EvaluationResult.weight).sum) := by
  refine ⟨?_, ?_, ?_⟩
  · intro h
    subst h
    rfl
  · intro h
    unfold compute_total_score
    by_cases he : results.isEmpty = true
    · rw [if_pos he]
    · rw [if_neg he]
      show (if (results.map EvaluationResult.weight).sum = 0 then (0:ℝ)
        else (results.map EvaluationResult.weighted_score).sum /
          (results.map EvaluationResult.weight).sum) = 0
      rw [if_pos h]
  · intro h
    have he : ¬ results.isEmpty = true := by
      cases results with
      | nil =>
          exact absurd (by simp :
            (List.map EvaluationResult.weight
              ([] : List EvaluationResult)).sum = 0) h
      | cons a l => exact Bool.false_ne_true
    unfold compute_total_score
    rw [if_neg he]
    show (if (results.map EvaluationResult.weight).sum = 0 then (0:ℝ)
      else (results.map EvaluationResult.weighted_score).sum /
        (results.map EvaluationResult.weight).sum) = _
    rw [if_neg h]
    unfold EvaluationResult.weighted_score
    rfl

/-- C8 (witness): a single result of score `1/2` and weight 2 has weight sum
`2 ≠ 0` and total score given by the quotient formula. -/
theorem C8_witness :
    ((exResults.map EvaluationResult.weight).sum ≠ 0) ∧
    compute_total_score exResults =
      ((exResults.map fun r => r.score * r.weight).sum /
        (exResults.map EvaluationResult.weight).sum) := by
  have h : (exResults.map EvaluationResult.weight).sum ≠ 0 := by
    norm_num [exResults]
  exact ⟨h, (C8_thm _).2.2 h⟩

/-! ### C4: the completion-gates-latency dependency -/

/-- The first element of the result list when no completion override is
supplied: the completion evaluator's own result. -/
theorem evaluate_session_get0_none (s : SessionData) (cr : Option ℚ) :
    (evaluate_session s Option.none cr).get? 0 = Option.some
      { name := "首次需求完成度",
        score := ((CompletionEvaluator.evaluate firstCompletionConfig s).score : ℝ),
        weight := (configWeight firstCompletionConfig : ℝ),
        raw := (CompletionEvaluator.evaluate firstCompletionConfig s).raw } := rfl

/-- C4: when the completion result scores below 1 and no `firstCompleted =
True` override is supplied, the latency result's score is forced to 0 while
its raw value is the one the latency evaluator computed; with the
`firstCompleted = True` override the latency result is the evaluator's own
result, not forced. -/
theorem C4_thm (s : SessionData) (fc : Option Bool) (cr : Option ℚ) :
    (∀ r0, (evaluate_session s fc cr).get? 0 = Option.some r0 →
      r0.score < 1 → fc ≠ Option.some true →
      (evaluate_session s fc cr).get? 1 = Option.some
        { name := "首次完成时间", score := 0,
          weight := (configWeight firstTimeConfig : ℝ),
          raw := (FirstTimeEvaluator.evaluate firstTimeConfig s).raw }) ∧
    (fc = Option.some true →
      (evaluate_session s fc cr).get? 1 = Option.some
        { name := "首次完成时间",
          score := (FirstTimeEvaluator.evaluate firstTimeConfig s).score,
          weight := (configWeight firstTimeConfig : ℝ),
          raw := (FirstTimeEvaluator.evaluate firstTimeConfig s).raw }) := by
  constructor
  · intro r0 h0 hlt hfc
    rcases fc with _ | b
    · have h0' := evaluate_session_get0_none s cr
      rw [h0] at h0'
      have hr0 := Option.some.inj h0'
      have hsc : ((CompletionEvaluator.evaluate firstCompletionConfig s).score : ℝ)
          < 1 := by
        rw [hr0] at hlt
        exact hlt
      have hq : (CompletionEvaluator.evaluate firstCompletionConfig s).score < 1 := by
        exact_mod_cast hsc
      have hdec : decide
          (1 ≤ (CompletionEvaluator.evaluate firstCompletionConfig s).score) =
          false := decide_eq_false (not_le.mpr hq)
      rw [show (evaluate_session s Option.none cr).get? 1 = Option.some
          (if decide (1 ≤ (CompletionEvaluator.evaluate
                firstCompletionConfig s).score) = true
           then { name := "首次完成时间",
                  score := (FirstTimeEvaluator.evaluate firstTimeConfig s).score,
                  weight := (configWeight firstTimeConfig : ℝ),
                  raw := (FirstTimeEvaluator.evaluate firstTimeConfig s).raw }
           else { name := "首次完成时间", score := 0,
                  weight := (configWeight firstTimeConfig : ℝ),
                  raw := (FirstTimeEvaluator.evaluate firstTimeConfig s).raw })
          from rfl]
      rw [hdec]
      simp only [Bool.false_eq_true, if_false]
    · cases b
      · exact rfl
      · exact absurd rfl hfc
  · intro hfc
    subst hfc
    rfl

/-- C4 (witness): for the 3-prompt session with a modify keyword and no
override the completion result scores 0, and the latency result is forced to
score 0 while keeping the evaluator's raw value. -/
theorem C4_witness :
    (evaluate_session exThreeFix Option.none Option.none).get? 1 = Option.some
      { name := "首次完成时间", score := 0,
        weight := (configWeight firstTimeConfig : ℝ),
        raw := (FirstTimeEvaluator.evaluate firstTimeConfig exThreeFix).raw } := by
  have hco : CompletionEvaluator.evaluate firstCompletionConfig exThreeFix =
      ⟨0, RawValue.bool false⟩ := by decide
  have h0 : (evaluate_session exThreeFix Option.none Option.none).get? 0 =
      Option.some
      { name := "首次需求完成度", score := ((0:ℚ) : ℝ),
        weight := (configWeight firstCompletionConfig : ℝ),
        raw := RawValue.bool false } := by
    rw [evaluate_session_get0_none exThreeFix Option.none, hco]
  exact (C4_thm exThreeFix Option.none Option.none).1 _ h0
    (by norm_num) (by simp)

end CCEval

namespace CCEval

/-! ### Score-bound helpers for every evaluator -/

theorem ratCast_nonneg {q : ℚ} (h : 0 ≤ q) : (0:ℝ) ≤ (q:ℝ) := by
  exact_mod_cast h

theorem ratCast_le_one {q : ℚ} (h : q ≤ 1) : (q:ℝ) ≤ 1 := by
  exact_mod_cast h

theorem completion_score_bounds (cfg : EvalConfig) (s : SessionData) :
    0 ≤ (CompletionEvaluator.evaluate cfg s).score ∧
    (CompletionEvaluator.evaluate cfg s).score ≤ 1 := by
  simp only [CompletionEvaluator.evaluate]
  split
  · norm_num
  · split
    · norm_num
    · norm_num

theorem firstTime_score_bounds (cfg : EvalConfig) (s : SessionData) :
    0 ≤ (FirstTimeEvaluator.evaluate cfg s).score ∧
    (FirstTimeEvaluator.evaluate cfg s).score ≤ 1 := by
  simp only [FirstTimeEvaluator.evaluate]
  split
  · split
    · norm_num
    · exact ⟨clamp01R_nonneg _, clamp01R_le_one _⟩
  · norm_num

theorem promptCount_score_bounds (cfg : EvalConfig) (s : SessionData) :
    0 ≤ (PromptCountEvaluator.evaluate cfg s).score ∧
    (PromptCountEvaluator.evaluate cfg s).score ≤ 1 := by
  simp only [PromptCountEvaluator.evaluate]
  split
  · norm_num
  · split
    · exact ⟨clamp01_nonneg _, clamp01_le_one _⟩
    · exact ⟨clamp01_nonneg _, clamp01_le_one _⟩

theorem totalTime_score_bounds (cfg : EvalConfig) (s : SessionData) :
    0 ≤ (TotalTimeEvaluator.evaluate cfg s).score ∧
    (TotalTimeEvaluator.evaluate cfg s).score ≤ 1 := by
  simp only [TotalTimeEvaluator.evaluate]
  split
  · norm_num
  · split
    · norm_num
    · exact ⟨clamp01_nonneg _, clamp01_le_one _⟩

theorem codeSize_score_bounds (cfg : EvalConfig) (s : SessionData) :
    0 ≤ (CodeSizeEvaluator.evaluate cfg s).score ∧
    (CodeSizeEvaluator.evaluate cfg s).score ≤ 1 := by
  simp only [CodeSizeEvaluator.evaluate]
  split
  · norm_num
  · exact ⟨clamp01_nonneg _, clamp01_le_one _⟩

theorem task_score_bounds (cfg : EvalConfig) (s : SessionData) :
    0 ≤ (TaskCompletionEvaluator.evaluate cfg s).score ∧
    (TaskCompletionEvaluator.evaluate cfg s).score ≤ 1 := by
  simp only [TaskCompletionEvaluator.evaluate]
  constructor
  · exact div_nonneg (le_max_left 0 _) (by norm_num)
  · rw [div_le_one (by norm_num)]
    exact max_le (by norm_num) (min_le_left _ _)

/-! ### Weight helpers -/

theorem configWeight_firstCompletion : configWeight firstCompletionConfig = 1 := rfl

theorem configWeight_firstTime : configWeight firstTimeConfig = 1 := rfl

theorem configWeight_promptCount : configWeight promptCountConfig = 1 := rfl

theorem configWeight_totalTime : configWeight totalTimeConfig = 1 := rfl

theorem configWeight_codeSize : configWeight codeSizeConfig = 1 := rfl

theorem configWeight_taskBase : configWeight taskCompletionConfigBase = 1 := rfl

theorem configWeight_taskOverride (q : ℚ) :
    configWeight
      { taskCompletionConfigBase with completionRate := Option.some q } = 1 := rfl

/-- Every result produced by `evaluate_session` carries weight 1. -/
theorem evaluate_session_weight_one (s : SessionData) (fc : Option Bool)
    (cr : Option ℚ) :
    ∀ r ∈ evaluate_session s fc cr, r.weight = 1 := by
  intro r hr
  rcases fc with _ | b <;> rcases cr with _ | q <;>
    simp only [evaluate_session, List.mem_cons, List.not_mem_nil, or_false] at hr <;>
    rcases hr with rfl | rfl | rfl | rfl | rfl | rfl <;>
    simp only [configWeight_firstCompletion, configWeight_firstTime,
      configWeight_promptCount, configWeight_totalTime, configWeight_codeSize,
      configWeight_taskBase, configWeight_taskOverride, Rat.cast_one] <;>
    (try (split <;> rfl))

/-- Every result produced by `evaluate_session` has score in `[0,1]`. -/
theorem evaluate_session_score_bounds (s : SessionData) (fc : Option Bool)
    (cr : Option ℚ) :
    ∀ r ∈ evaluate_session s fc cr, 0 ≤ r.score ∧ r.score ≤ 1 := by
  have hco := completion_score_bounds firstCompletionConfig s
  have hft := firstTime_score_bounds firstTimeConfig s
  have hr2 : ∀ c : Bool,
      0 ≤ (if c = true then
            ({ name := "首次完成时间",
               score := (FirstTimeEvaluator.evaluate firstTimeConfig s).score,
               weight := (configWeight firstTimeConfig : ℝ),
               raw := (FirstTimeEvaluator.evaluate firstTimeConfig s).raw } :
              EvaluationResult)
          else
            { name := "首次完成时间", score := 0,
              weight := (configWeight firstTimeConfig : ℝ),
              raw := (FirstTimeEvaluator.evaluate firstTimeConfig s).raw }).score ∧
      (if c = true then
            ({ name := "首次完成时间",
               score := (FirstTimeEvaluator.evaluate firstTimeConfig s).score,
               weight := (configWeight firstTimeConfig : ℝ),
               raw := (FirstTimeEvaluator.evaluate firstTimeConfig s).raw } :
              EvaluationResult)
          else
            { name := "首次完成时间", score := 0,
              weight := (configWeight firstTimeConfig : ℝ),
              raw := (FirstTimeEvaluator.evaluate firstTimeConfig s).raw }).score ≤ 1 := by
    intro c
    cases c
    · simp only [Bool.false_eq_true, if_false]
      exact ⟨le_rfl, zero_le_one⟩
    · simp only [if_pos rfl]
      exact hft
  intro r hr
  rcases fc with _ | b <;>
    simp only [evaluate_session, List.mem_cons, List.not_mem_nil, or_false] at hr <;>
    rcases hr with rfl | rfl | rfl | rfl | rfl | rfl
  · exact ⟨ratCast_nonneg hco.1, ratCast_le_one hco.2⟩
  · exact hr2 _
  · exact ⟨ratCast_nonneg (promptCount_score_bounds promptCountConfig s).1,
           ratCast_le_one (promptCount_score_bounds promptCountConfig s).2⟩
  · exact ⟨ratCast_nonneg (totalTime_score_bounds totalTimeConfig s).1,
           ratCast_le_one (totalTime_score_bounds totalTimeConfig s).2⟩
  · exact ⟨ratCast_nonneg (codeSize_score_bounds codeSizeConfig s).1,
           ratCast_le_one (codeSize_score_bounds codeSizeConfig s).2⟩
  · exact ⟨ratCast_nonneg (task_score_bounds _ s).1,
           ratCast_le_one (task_score_bounds _ s).2⟩
  · cases b <;> norm_num
  · exact hr2 _
  · exact ⟨ratCast_nonneg (promptCount_score_bounds promptCountConfig s).1,
           ratCast_le_one (promptCount_score_bounds promptCountConfig s).2⟩
  · exact ⟨ratCast_nonneg (totalTime_score_bounds totalTimeConfig s).1,
           ratCast_le_one (totalTime_score_bounds totalTimeConfig s).2⟩
  · exact ⟨ratCast_nonneg (codeSize_score_bounds codeSizeConfig s).1,
           ratCast_le_one (codeSize_score_bounds codeSizeConfig s).2⟩
  · exact ⟨ratCast_nonneg (task_score_bounds _ s).1,
           ratCast_le_one (task_score_bounds _ s).2⟩

end CCEval

namespace CCEval

/-! ### Aggregation helpers -/

theorem weight_sum_eq_length (results : List EvaluationResult)
    (hw : ∀ r ∈ results, r.weight = 1) :
    (results.map EvaluationResult.weight).sum = (results.length : ℝ) := by
  induction results with
  | nil => simp
  | cons a l ih =>
      rw [List.map_cons, List.sum_cons, hw a (List.mem_cons_self a l),
          ih fun r hr => hw r (List.mem_cons_of_mem a hr), List.length_cons]
      push_cast
      ring

theorem score_sum_bounds (results : List EvaluationResult)
    (hs : ∀ r ∈ results, 0 ≤ r.score ∧ r.score ≤ 1) :
    0 ≤ (results.map EvaluationResult.score).sum ∧
    (results.map EvaluationResult.score).sum ≤ (results.length : ℝ) := by
  induction results with
  | nil => simp
  | cons a l ih =>
      have ha := hs a (List.mem_cons_self a l)
      have ih' := ih fun r hr => hs r (List.mem_cons_of_mem a hr)
      rw [List.map_cons, List.sum_cons, List.length_cons]
      constructor
      · linarith [ih'.1, ha.1]
      · push_cast
        linarith [ih'.2, ha.2]

theorem weighted_sum_eq_score_sum (results : List EvaluationResult)
    (hw : ∀ r ∈ results, r.weight = 1) :
    (results.map EvaluationResult.weighted_score).sum =
      (results.map EvaluationResult.score).sum := by
  induction results with
  | nil => rfl
  | cons a l ih =>
      rw [List.map_cons, List.map_cons, List.sum_cons, List.sum_cons,
          ih fun r hr => hw r (List.mem_cons_of_mem a hr)]
      unfold EvaluationResult.weighted_score
      rw [hw a (List.mem_cons_self a l), mul_one]

/-- On a nonempty unit-weight result list the total score is the arithmetic
mean of the scores. -/
theorem total_score_of_unit_weights (results : List EvaluationResult)
    (hne : results ≠ []) (hw : ∀ r ∈ results, r.weight = 1) :
    compute_total_score results =
      (results.map EvaluationResult.score).sum / (results.length : ℝ) := by
  have he : ¬ results.isEmpty = true := by
    cases results with
    | nil => exact absurd rfl hne
    | cons a l => exact Bool.false_ne_true
  have hlen : 0 < results.length := by
    cases results with
    | nil => exact absurd rfl hne
    | cons a l => simp
  unfold compute_total_score
  rw [if_neg he]
  show (if (results.map EvaluationResult.weight).sum = 0 then (0:ℝ)
    else (results.map EvaluationResult.weighted_score).sum /
      (results.map EvaluationResult.weight).sum) = _
  rw [weight_sum_eq_length results hw, weighted_sum_eq_score_sum results hw,
      if_neg (by exact_mod_cast Nat.pos_iff_ne_zero.mp hlen)]

theorem total_score_bounds (results : List EvaluationResult)
    (hw : ∀ r ∈ results, r.weight = 1)
    (hs : ∀ r ∈ results, 0 ≤ r.score ∧ r.score ≤ 1) :
    0 ≤ compute_total_score results ∧ compute_total_score results ≤ 1 := by
  cases hres : results with
  | nil =>
      constructor <;> simp [compute_total_score]
  | cons a l =>
      subst hres
      have hne : a :: l ≠ [] := by simp
      rw [total_score_of_unit_weights _ hne hw]
      have hb := score_sum_bounds _ hs
      have hlen : (0:ℝ) < ((a :: l).length : ℝ) := by
        have : 0 < (a :: l).length := by simp
        exact_mod_cast this
      constructor
      · exact div_nonneg hb.1 hlen.le
      · rw [div_le_one hlen]
        exact hb.2

/-! ### C7: scores and total score stay in [0,1] -/

/-- C7: every result of `evaluate_session` (under any overrides) has score
in `[0,1]`, and the report's total score also lies in `[0,1]`. -/
theorem C7_thm (s : SessionData) (fc : Option Bool) (cr : Option ℚ)
    (r : EvaluationResult) (hr : r ∈ evaluate_session s fc cr) :
    (0 ≤ r.score ∧ r.score ≤ 1) ∧
    0 ≤ compute_total_score (evaluate_session s fc cr) ∧
    compute_total_score (evaluate_session s fc cr) ≤ 1 :=
  ⟨evaluate_session_score_bounds s fc cr r hr,
   total_score_bounds _ (evaluate_session_weight_one s fc cr)
     (evaluate_session_score_bounds s fc cr)⟩

/-- The first result of the untouched `exThree` evaluation, concretely. -/
theorem exThree_head_mem :
    ({ name := "首次需求完成度", score := 1, weight := 1,
       raw := RawValue.bool true } : EvaluationResult) ∈
      evaluate_session exThree Option.none Option.none := by
  have hco : CompletionEvaluator.evaluate firstCompletionConfig exThree =
      ⟨1, RawValue.bool true⟩ := by decide
  have h1 : ({ name := "首次需求完成度", score := 1, weight := 1,
               raw := RawValue.bool true } : EvaluationResult) =
      ({ name := "首次需求完成度",
         score := ((CompletionEvaluator.evaluate firstCompletionConfig exThree).score : ℝ),
         weight := (configWeight firstCompletionConfig : ℝ),
         raw := (CompletionEvaluator.evaluate firstCompletionConfig exThree).raw } :
        EvaluationResult) := by
    rw [hco, configWeight_firstCompletion]
    norm_num
  rw [h1]
  exact List.mem_cons_self _ _

/-- C7 (witness): the theorem applied at `exThree` with no overrides. -/
theorem C7_witness :
    0 ≤ compute_total_score (evaluate_session exThree Option.none Option.none) ∧
    compute_total_score (evaluate_session exThree Option.none Option.none) ≤ 1 :=
  (C7_thm exThree Option.none Option.none _ exThree_head_mem).2

/-! ### C10: default configuration means unit weights and the plain mean -/

/-- C10: the default scoring config has no `task_completion` entry, the
task-completion evaluator hence runs on the empty config, every result
carries weight 1, and the total score of the six results is their arithmetic
mean. -/
theorem C10_thm (s : SessionData) (fc : Option Bool) (cr : Option ℚ)
    (r : EvaluationResult) (hr : r ∈ evaluate_session s fc cr) :
    SCORING_CONFIG "task_completion" = Option.none ∧
    taskCompletionConfigBase = ({} : EvalConfig) ∧
    r.weight = 1 ∧
    (evaluate_session s fc cr).length = 6 ∧
    compute_total_score (evaluate_session s fc cr) =
      ((evaluate_session s fc cr).map EvaluationResult.score).sum / 6 := by
  have hlen : (evaluate_session s fc cr).length = 6 := by
    rcases fc with _ | b <;> rfl
  refine ⟨rfl, rfl, evaluate_session_weight_one s fc cr r hr, hlen, ?_⟩
  have hne : evaluate_session s fc cr ≠ [] := by
    intro hnil
    rw [hnil] at hlen
    simp at hlen
  rw [total_score_of_unit_weights _ hne (evaluate_session_weight_one s fc cr),
      hlen]
  norm_num

/-- C10 (witness): the theorem applied at `exThree` with no overrides. -/
theorem C10_witness :
    SCORING_CONFIG "task_completion" = Option.none ∧
    taskCompletionConfigBase = ({} : EvalConfig) ∧
    ({ name := "首次需求完成度", score := 1, weight := 1,
       raw := RawValue.bool true } : EvaluationResult).weight = 1 ∧
    (evaluate_session exThree Option.none Option.none).length = 6 ∧
    compute_total_score (evaluate_session exThree Option.none Option.none) =
      ((evaluate_session exThree Option.none Option.none).map
        EvaluationResult.score).sum / 6 :=
  C10_thm exThree Option.none Option.none _ exThree_head_mem

end CCEval

namespace CCEval

/-! ### C9: tolerant record normalisation -/

theorem parse_records_cons_some (parseTs : String → Option ℚ) (r : RawRecord)
    (rest : List (Option RawRecord)) :
    parse_records parseTs (Option.some r :: rest) =
      match normalizeRecord parseTs r with
      | Option.none => parse_records parseTs rest
      | Option.some m => m :: parse_records parseTs rest := rfl

/-- A record that `normalizeRecord` accepts yields a user/assistant message
carrying the successfully parsed timestamp. -/
theorem normalizeRecord_some (parseTs : String → Option ℚ) (r : RawRecord)
    (m : Message) (h : normalizeRecord parseTs r = Option.some m) :
    (m.msgType = MessageType.user ∨ m.msgType = MessageType.assistant) ∧
    parse_timestamp parseTs r.timestampStr = Option.some m.timestamp := by
  unfold normalizeRecord at h
  by_cases h1 : r.typ = "queue-operation" ∨ r.typ = "file-history-snapshot" ∨
      r.typ = "summary"
  · rw [if_pos h1] at h
    exact Option.noConfusion h
  · rw [if_neg h1] at h
    by_cases h2 : r.typ = "user" ∨ r.typ = "assistant"
    · rw [if_pos h2] at h
      cases hts : parse_timestamp parseTs r.timestampStr with
      | none =>
          rw [hts] at h
          exact Option.noConfusion h
      | some ts =>
          rw [hts] at h
          injection h with h3
          subst h3
          constructor
          · by_cases hu : r.typ = "user"
            · left
              show (if r.typ = "user" then MessageType.user
                    else MessageType.assistant) = MessageType.user
              rw [if_pos hu]
            · right
              show (if r.typ = "user" then MessageType.user
                    else MessageType.assistant) = MessageType.assistant
              rw [if_neg hu]
          · rfl
    · rw [if_neg h2] at h
      exact Option.noConfusion h

/-- C9: normalisation is a total function on the line list (no input raises
an error); a malformed JSON line contributes nothing; records of a
queue/snapshot/summary kind, or of any kind other than user/assistant, are
discarded; a retained record with an unparseable timestamp is discarded; and
every message entering the timeline is a user/assistant message whose
timestamp was successfully parsed from some line. -/
theorem C9_thm (parseTs : String → Option ℚ) (lines : List (Option RawRecord)) :
    (∀ m ∈ parse_records parseTs lines,
      (m.msgType = MessageType.user ∨ m.msgType = MessageType.assistant) ∧
      ∃ r : RawRecord, Option.some r ∈ lines ∧
        parse_timestamp parseTs r.timestampStr = Option.some m.timestamp) ∧
    (parse_records parseTs (Option.none :: lines) =
      parse_records parseTs lines) ∧
    (∀ r : RawRecord,
      (r.typ = "queue-operation" ∨ r.typ = "file-history-snapshot" ∨
       r.typ = "summary" ∨ ¬(r.typ = "user" ∨ r.typ = "assistant")) →
      parse_records parseTs (Option.some r :: lines) =
        parse_records parseTs lines) ∧
    (∀ r : RawRecord, parse_timestamp parseTs r.timestampStr = Option.none →
      parse_records parseTs (Option.some r :: lines) =
        parse_records parseTs lines) := by
  refine ⟨?_, rfl, ?_, ?_⟩
  · induction lines with
    | nil =>
        intro m hm
        exact absurd hm (List.not_mem_nil m)
    | cons l rest ih =>
        intro m hm
        cases l with
        | none =>
            rcases ih m hm with ⟨ht, r, hr, hts⟩
            exact ⟨ht, r, List.mem_cons_of_mem _ hr, hts⟩
        | some r0 =>
            rw [parse_records_cons_some] at hm
            cases hn : normalizeRecord parseTs r0 with
            | none =>
                rw [hn] at hm
                rcases ih m hm with ⟨ht, r, hr, hts⟩
                exact ⟨ht, r, List.mem_cons_of_mem _ hr, hts⟩
            | some m0 =>
                rw [hn] at hm
                rcases List.mem_cons.mp hm with rfl | hm'
                · have hr := normalizeRecord_some parseTs r0 m hn
                  exact ⟨hr.1, r0, List.mem_cons_self _ _, hr.2⟩
                · rcases ih m hm' with ⟨ht, r, hr, hts⟩
                  exact ⟨ht, r, List.mem_cons_of_mem _ hr, hts⟩
  · intro r hr
    rw [parse_records_cons_some]
    have hn : normalizeRecord parseTs r = Option.none := by
      unfold normalizeRecord
      rcases hr with h | h | h | h
      · rw [if_pos (Or.inl h)]
      · rw [if_pos (Or.inr (Or.inl h))]
      · rw [if_pos (Or.inr (Or.inr h))]
      · by_cases h1 : r.typ = "queue-operation" ∨
            r.typ = "file-history-snapshot" ∨ r.typ = "summary"
        · rw [if_pos h1]
        · rw [if_neg h1, if_neg h]
    rw [hn]
  · intro r hts
    rw [parse_records_cons_some]
    have hn : normalizeRecord parseTs r = Option.none := by
      unfold normalizeRecord
      by_cases h1 : r.typ = "queue-operation" ∨
          r.typ = "file-history-snapshot" ∨ r.typ = "summary"
      · rw [if_pos h1]
      · rw [if_neg h1]
        by_cases h2 : r.typ = "user" ∨ r.typ = "assistant"
        · rw [if_pos h2, hts]
        · rw [if_neg h2]
    rw [hn]

/-- C9 (witness): of the four concrete raw lines (malformed, summary,
well-formed user, unparseable timestamp) exactly the well-formed user record
survives, with its parsed timestamp. -/
theorem C9_witness :
    exParsedMsg ∈ parse_records exParseTs exRawLines ∧
    (exParsedMsg.msgType = MessageType.user ∨
     exParsedMsg.msgType = MessageType.assistant) ∧
    (∃ r : RawRecord, Option.some r ∈ exRawLines ∧
      parse_timestamp exParseTs r.timestampStr =
        Option.some exParsedMsg.timestamp) ∧
    parse_records exParseTs exRawLines = [exParsedMsg] := by
  have hm : exParsedMsg ∈ parse_records exParseTs exRawLines := by decide
  have h := (C9_thm exParseTs exRawLines).1 exParsedMsg hm
  exact ⟨hm, h.1, h.2, by decide⟩

end CCEval
